import Mathlib

/-!
Verification of the S3 filesystem backend adapter
(`clients/filesystem-fuse/src/s3_filesystem.rs`).

The Rust source is shallowly embedded below: pure functions become Lean
functions, Rust `Result` becomes `Except`, `HashMap<String, String>` is
modelled as an association list with lookup (`mget`) and overwriting
insert (`minsert`), and the external collaborators (the `opendal`
operator and the generic `OpenDalFileSystem` delegate) are abstract
parameters supplied through an environment record.
-/

/-- Error codes of the crate's `ErrorCode` enum that this module uses
(`crate::error::ErrorCode::{InvalidConfig, OpenDalError}`). -/
inductive ErrorCode where
  | InvalidConfig
  | OpenDalError
deriving DecidableEq, Repr

/-- An error value as produced by `ErrorCode::to_error(message)`. -/
structure GvfsError where
  code : ErrorCode
  message : String
deriving DecidableEq, Repr

/-- Embedding of `ErrorCode::to_error`. -/
def ErrorCode.to_error (c : ErrorCode) (msg : String) : GvfsError :=
  { code := c, message := msg }

/-- Embedding of `GvfsResult<T>` from `crate::utils`. -/
abbrev GvfsResult (α : Type) : Type := Except GvfsError α

/-- Lookup in the association-list model of `HashMap<String, String>`
(the semantics of `HashMap::get`). -/
def mget : List (String × String) → String → Option String
  | [], _ => none
  | kv :: rest, k => if kv.1 = k then some kv.2 else mget rest k

/-- Insert in the association-list model of `HashMap<String, String>`:
like `HashMap::insert`, the new binding replaces any existing binding of
the same key. -/
def minsert (m : List (String × String)) (k v : String) : List (String × String) :=
  (k, v) :: m.filter (fun kv => kv.1 ≠ k)

/-- `crate::gravitino_client::Catalog`: a name and a property map. -/
structure Catalog where
  name : String
  properties : List (String × String)

/-- `crate::gravitino_client::Fileset`: only `storage_location` is
consumed by this module. -/
structure Fileset where
  storage_location : String

/-- `crate::config::AppConfig`: only `extend_config` is consumed by this
module. -/
structure AppConfig where
  extend_config : List (String × String)

/-- `crate::filesystem::FileSystemContext`, threaded through unused. -/
abbrev FileSystemContext : Type := Unit

/-- The structured value returned by the location parser, exposing the
`host_str()` accessor of `url::Url`. -/
structure Url where
  host : Option String
deriving DecidableEq, Repr

/-- Splitting a character list at every occurrence of a separator
character: the executable model of Rust's `str::split(sep)`. -/
def splitOnChar (c : Char) : List Char → List (List Char)
  | [] => [[]]
  | x :: xs =>
    if x = c then [] :: splitOnChar c xs
    else
      match splitOnChar c xs with
      | [] => [[x]]
      | g :: gs => (x :: g) :: gs

/-- Split a character list at the first occurrence of `://`, returning
the scheme part and the remainder, or `none` when `://` is absent. -/
def splitScheme : List Char → Option (List Char × List Char)
  | [] => none
  | ':' :: '/' :: '/' :: rest => some ([], rest)
  | x :: xs =>
    match splitScheme xs with
    | none => none
    | some (s, r) => some (x :: s, r)

/-- Modelled from the spec: `crate::utils::parse_location` is not under
`src/`; per the spec's Location Parser contract it parses a location
string of the form `scheme://authority/path...` into a structured value
exposing a host accessor, failing with `InvalidConfig` when the string
cannot be parsed as a URL at all; per the spec's data model the
authority (host) is exposed only when present and non-empty. -/
def parse_location (location : String) : GvfsResult Url :=
  match splitScheme location.data with
  | some (scheme, afterScheme) =>
    if scheme = [] then
      .error (ErrorCode.InvalidConfig.to_error ("Invalid fileset location: " ++ location))
    else
      let authority := afterScheme.takeWhile (fun c => c ≠ '/')
      .ok { host := if authority = [] then none else some (String.mk authority) }
  | none => .error (ErrorCode.InvalidConfig.to_error ("Invalid fileset location: " ++ location))

/-- Embedding of `extract_bucket` (s3_filesystem.rs lines 131-140). -/
def extract_bucket (location : String) : GvfsResult String :=
  match parse_location location with
  | .error e => .error e
  | .ok url =>
    match url.host with
    | some host => .ok host
    | none =>
      .error (ErrorCode.InvalidConfig.to_error
        ("Invalid fileset location without bucket: " ++ location))

/-- The dot-separated segments of a host, as in the source's
`host.split('.').collect::<Vec<&str>>()`. -/
def hostParts (host : String) : List String :=
  (splitOnChar '.' host.data).map String.mk

/-- Embedding of `extract_region` (s3_filesystem.rs lines 142-161): split
the host on `.` and return the segment at index 1 when there are more
than one segments. -/
def extract_region (location : String) : GvfsResult String :=
  match parse_location location with
  | .error e => .error e
  | .ok url =>
    match url.host with
    | some host =>
      let parts := hostParts host
      if h : parts.length > 1 then
        .ok (parts.get ⟨1, h⟩)
      else
        .error (ErrorCode.InvalidConfig.to_error
          ("Invalid location: expected region in host, got " ++ location))
    | none =>
      .error (ErrorCode.InvalidConfig.to_error
        ("Invalid fileset location without bucket: " ++ location))

/-- Source constant `S3FileSystem::S3_CONFIG_PREFIX`, the key marker
stripped from configuration keys. -/
def s3ConfigKeyStart : String := "s3-"

/-- Embedding of `extract_s3_config` (s3_filesystem.rs lines 163-181):
keep exactly the entries of `extend_config` whose key starts with
`"s3-"`, stripping that marker from the key; Rust's byte-wise
`str::starts_with` / `strip_prefix` pair is rendered as a character-list
test plus dropping the marker's characters. -/
def extract_s3_config (config : AppConfig) : List (String × String) :=
  config.extend_config.filterMap fun kv =>
    if s3ConfigKeyStart.data.isPrefixOf kv.1.data then
      some (kv.1.drop s3ConfigKeyStart.length, kv.2)
    else
      none

/-- Embedding of `S3FileSystem::get_s3_region` (s3_filesystem.rs lines
70-81). -/
def S3FileSystem.get_s3_region (catalog : Catalog) : GvfsResult String :=
  match mget catalog.properties "s3-region" with
  | some region => .ok region
  | none =>
    match mget catalog.properties "s3-endpoint" with
    | some endpoint => extract_region endpoint
    | none =>
      .error (ErrorCode.InvalidConfig.to_error
        ("Cant not retrieve region in the Catalog " ++ catalog.name))

/-- The parameter-map assembly of `S3FileSystem::new` (s3_filesystem.rs
lines 49-54): extract the `s3-`-keyed configuration, insert the bucket
derived from the fileset's storage location, then insert the region
resolved from the catalog; this is exactly the map handed to
`S3::from_map`. -/
def s3_opendal_cfg (catalog : Catalog) (fileset : Fileset) (config : AppConfig) :
    GvfsResult (List (String × String)) :=
  let opendal_config := extract_s3_config config
  match extract_bucket fileset.storage_location with
  | .error e => .error e
  | .ok bucket =>
    let opendal_config := minsert opendal_config "bucket" bucket
    match S3FileSystem.get_s3_region catalog with
    | .error e => .error e
    | .ok region => .ok (minsert opendal_config "region" region)

/-- The external `OpenDalFileSystem` delegate
(`crate::open_dal_filesystem`, outside this module): a record of its
`PathFileSystem` operations, abstract in the path, file-stat,
opened-file, flag, capacity and per-operation error types. -/
structure OpenDalFileSystem (P FS OF FL CAP E : Type) where
  stat : P → Except E FS
  read_dir : P → Except E (List FS)
  open_file : P → FL → Except E OF
  open_dir : P → FL → Except E OF
  create_file : P → FL → Except E OF
  create_dir : P → Except E FS
  set_attr : P → FS → Bool → Except E Unit
  remove_file : P → Except E Unit
  remove_dir : P → Except E Unit
  get_capacity : Except E CAP

/-- Embedding of the struct `S3FileSystem` (s3_filesystem.rs lines
34-36): it owns exactly one `OpenDalFileSystem` delegate. -/
structure S3FileSystem (P FS OF FL CAP E : Type) where
  open_dal_fs : OpenDalFileSystem P FS OF FL CAP E

/-- The external collaborators used by `S3FileSystem::new`: the opendal
builder/operator constructor (`S3::from_map` + `Operator::new`, which
consumes the assembled parameter map), the logging-layer wrapping and
`finish` step, and the `OpenDalFileSystem::new` delegate constructor.
Opendal's construction error is modelled by its rendered message. -/
structure S3Env (P FS OF FL CAP E Op : Type) where
  operator_new : List (String × String) → Except String Op
  finish_with_logging : Op → Op
  open_dal_fs_new : Op → AppConfig → FileSystemContext → OpenDalFileSystem P FS OF FL CAP E

/-- Embedding of `S3FileSystem::new` (s3_filesystem.rs lines 43-68).
The second component is the list of messages logged with `error!`; the
Rust code logs `"opendal create failed: {:?}"` exactly when
`Operator::new` fails, and returns the same text wrapped in an
`OpenDalError`. -/
def S3FileSystem.new {P FS OF FL CAP E Op : Type} (env : S3Env P FS OF FL CAP E Op)
    (catalog : Catalog) (fileset : Fileset) (config : AppConfig)
    (fs_context : FileSystemContext) :
    GvfsResult (S3FileSystem P FS OF FL CAP E) × List String :=
  match s3_opendal_cfg catalog fileset config with
  | .error e => (.error e, [])
  | .ok opendal_config =>
    match env.operator_new opendal_config with
    | .error e =>
      (.error (ErrorCode.OpenDalError.to_error ("opendal create failed: " ++ e)),
       ["opendal create failed: " ++ e])
    | .ok op =>
      (.ok { open_dal_fs := env.open_dal_fs_new (env.finish_with_logging op) config fs_context },
       [])

/-- Forwarding impl of `PathFileSystem for S3FileSystem` (s3_filesystem.rs
lines 84-129): `init` succeeds without touching the delegate. -/
def S3FileSystem.init {P FS OF FL CAP E : Type} (_ : S3FileSystem P FS OF FL CAP E) :
    Except E Unit :=
  .ok ()

/-- Forwarding of `stat`. -/
def S3FileSystem.stat {P FS OF FL CAP E : Type} (fs : S3FileSystem P FS OF FL CAP E)
    (path : P) : Except E FS :=
  fs.open_dal_fs.stat path

/-- Forwarding of `read_dir`. -/
def S3FileSystem.read_dir {P FS OF FL CAP E : Type} (fs : S3FileSystem P FS OF FL CAP E)
    (path : P) : Except E (List FS) :=
  fs.open_dal_fs.read_dir path

/-- Forwarding of `open_file`. -/
def S3FileSystem.open_file {P FS OF FL CAP E : Type} (fs : S3FileSystem P FS OF FL CAP E)
    (path : P) (flags : FL) : Except E OF :=
  fs.open_dal_fs.open_file path flags

/-- Forwarding of `open_dir`. -/
def S3FileSystem.open_dir {P FS OF FL CAP E : Type} (fs : S3FileSystem P FS OF FL CAP E)
    (path : P) (flags : FL) : Except E OF :=
  fs.open_dal_fs.open_dir path flags

/-- Forwarding of `create_file`. -/
def S3FileSystem.create_file {P FS OF FL CAP E : Type} (fs : S3FileSystem P FS OF FL CAP E)
    (path : P) (flags : FL) : Except E OF :=
  fs.open_dal_fs.create_file path flags

/-- Forwarding of `create_dir`. -/
def S3FileSystem.create_dir {P FS OF FL CAP E : Type} (fs : S3FileSystem P FS OF FL CAP E)
    (path : P) : Except E FS :=
  fs.open_dal_fs.create_dir path

/-- Forwarding of `set_attr`. -/
def S3FileSystem.set_attr {P FS OF FL CAP E : Type} (fs : S3FileSystem P FS OF FL CAP E)
    (path : P) (file_stat : FS) (flush : Bool) : Except E Unit :=
  fs.open_dal_fs.set_attr path file_stat flush

/-- Forwarding of `remove_file`. -/
def S3FileSystem.remove_file {P FS OF FL CAP E : Type} (fs : S3FileSystem P FS OF FL CAP E)
    (path : P) : Except E Unit :=
  fs.open_dal_fs.remove_file path

/-- Forwarding of `remove_dir`. -/
def S3FileSystem.remove_dir {P FS OF FL CAP E : Type} (fs : S3FileSystem P FS OF FL CAP E)
    (path : P) : Except E Unit :=
  fs.open_dal_fs.remove_dir path

/-- Forwarding of `get_capacity`. -/
def S3FileSystem.get_capacity {P FS OF FL CAP E : Type} (fs : S3FileSystem P FS OF FL CAP E) :
    Except E CAP :=
  fs.open_dal_fs.get_capacity

/-- Hosts exposed by the location parser are never the empty string. -/
theorem parse_location_host_ne_empty {location : String} {url : Url} {host : String}
    (hp : parse_location location = .ok url) (hh : url.host = some host) : host ≠ "" := by
  unfold parse_location at hp
  split at hp
  · split at hp
    · exact absurd hp (by simp)
    · simp only [Except.ok.injEq] at hp
      subst hp
      dsimp only at hh
      split at hh
      · exact absurd hh (by simp)
      · rename_i hne
        rw [Option.some.injEq] at hh
        intro hc
        apply hne
        have hdata := congrArg String.data (hh.trans hc)
        simpa using hdata
  · exact absurd hp (by simp)

/-- A successfully extracted bucket is never the empty string. -/
theorem extract_bucket_ok_ne_empty {location : String} {b : String}
    (h : extract_bucket location = .ok b) : b ≠ "" := by
  unfold extract_bucket at h
  split at h
  · exact absurd h (by simp)
  · rename_i url heq
    split at h
    · rename_i host hhost
      rw [Except.ok.injEq] at h
      subst h
      exact parse_location_host_ne_empty heq hhost
    · exact absurd h (by simp)

/-- Inserting a key makes it the looked-up binding. -/
theorem mget_minsert_self (m : List (String × String)) (k v : String) :
    mget (minsert m k v) k = some v := by
  simp [minsert, mget]

/-- Filtering out a key leaves lookups of other keys unchanged. -/
theorem mget_filter_ne (m : List (String × String)) {k k' : String} (h : k' ≠ k) :
    mget (m.filter (fun kv => kv.1 ≠ k)) k' = mget m k' := by
  induction m with
  | nil => rfl
  | cons kv rest ih =>
    rw [List.filter_cons]
    by_cases hk : kv.1 = k
    · rw [if_neg (by simp [hk])]
      rw [ih]
      have hk' : ¬ kv.1 = k' := by rw [hk]; exact Ne.symm h
      simp only [mget, if_neg hk']
    · rw [if_pos (by simp [hk])]
      simp only [mget]
      by_cases hkk : kv.1 = k'
      · simp only [if_pos hkk]
      · simp only [if_neg hkk]
        exact ih

/-- Inserting a key leaves lookups of other keys unchanged. -/
theorem mget_minsert_ne (m : List (String × String)) {k k' : String} (v : String)
    (h : k' ≠ k) : mget (minsert m k v) k' = mget m k' := by
  simp only [minsert, mget, if_neg (fun hc : k = k' => h hc.symm)]
  exact mget_filter_ne m h

/-- C1: every Path Filesystem contract operation on an `S3FileSystem`
adapter returns exactly the result of the same operation with the same
arguments on its underlying `OpenDalFileSystem` delegate, and `init`
always succeeds without consulting the delegate. -/
theorem s3_passthrough_equivalence (P FS OF FL CAP E : Type)
    (fs : S3FileSystem P FS OF FL CAP E) :
    fs.init = Except.ok () ∧
    (∀ p, fs.stat p = fs.open_dal_fs.stat p) ∧
    (∀ p, fs.read_dir p = fs.open_dal_fs.read_dir p) ∧
    (∀ p fl, fs.open_file p fl = fs.open_dal_fs.open_file p fl) ∧
    (∀ p fl, fs.open_dir p fl = fs.open_dal_fs.open_dir p fl) ∧
    (∀ p fl, fs.create_file p fl = fs.open_dal_fs.create_file p fl) ∧
    (∀ p, fs.create_dir p = fs.open_dal_fs.create_dir p) ∧
    (∀ p st fl, fs.set_attr p st fl = fs.open_dal_fs.set_attr p st fl) ∧
    (∀ p, fs.remove_file p = fs.open_dal_fs.remove_file p) ∧
    (∀ p, fs.remove_dir p = fs.open_dal_fs.remove_dir p) ∧
    fs.get_capacity = fs.open_dal_fs.get_capacity :=
  ⟨rfl, fun _ => rfl, fun _ => rfl, fun _ _ => rfl, fun _ _ => rfl, fun _ _ => rfl,
   fun _ => rfl, fun _ _ _ => rfl, fun _ => rfl, fun _ => rfl, rfl⟩

/-- C2: `get_s3_region` returns the catalog's `s3-region` property
verbatim when present (even when `s3-endpoint` is also present);
otherwise it runs the `s3-endpoint` property through `extract_region`,
propagating its result; otherwise it fails with an `InvalidConfig`
error naming the catalog. -/
theorem get_s3_region_resolution (c : Catalog) :
    (∀ r, mget c.properties "s3-region" = some r →
        S3FileSystem.get_s3_region c = .ok r) ∧
    (∀ e, mget c.properties "s3-region" = none →
        mget c.properties "s3-endpoint" = some e →
        S3FileSystem.get_s3_region c = extract_region e) ∧
    (mget c.properties "s3-region" = none →
        mget c.properties "s3-endpoint" = none →
        S3FileSystem.get_s3_region c =
          .error { code := ErrorCode.InvalidConfig,
                   message := "Cant not retrieve region in the Catalog " ++ c.name }) := by
  refine ⟨fun r hr => ?_, fun e hr he => ?_, fun hr he => ?_⟩
  · simp [S3FileSystem.get_s3_region, hr]
  · simp [S3FileSystem.get_s3_region, hr, he]
  · simp [S3FileSystem.get_s3_region, hr, he, ErrorCode.to_error]

/-- C2 witness: a catalog carrying both `s3-region` and `s3-endpoint`
resolves to the explicit region property. -/
theorem get_s3_region_resolution_witness :
    S3FileSystem.get_s3_region
      { name := "cat1",
        properties := [("s3-region", "us-west-2"),
                       ("s3-endpoint", "http://s3.eu-west-1.amazonaws.com")] } =
      .ok "us-west-2" :=
  (get_s3_region_resolution _).1 "us-west-2" rfl

/-- C4: `extract_bucket` returns the parsed URL's host verbatim as the
bucket when a host is present, and fails with `InvalidConfig` when the
URL has no host; on the repository's own example location
`s3://bucket/path/to/file` it returns `bucket`. -/
theorem extract_bucket_contract :
    (∀ location url host, parse_location location = .ok url → url.host = some host →
        extract_bucket location = .ok host) ∧
    (∀ location url, parse_location location = .ok url → url.host = none →
        extract_bucket location =
          .error { code := ErrorCode.InvalidConfig,
                   message := "Invalid fileset location without bucket: " ++ location }) ∧
    extract_bucket "s3://bucket/path/to/file" = .ok "bucket" := by
  refine ⟨fun location url host hp hh => ?_, fun location url hp hh => ?_, rfl⟩
  · simp [extract_bucket, hp, hh]
  · simp [extract_bucket, hp, hh, ErrorCode.to_error]

/-- C4 witness: a concrete location with a host yields that host as the
bucket, through the general contract. -/
theorem extract_bucket_contract_witness :
    extract_bucket "s3://some-bucket/dir/file" = .ok "some-bucket" :=
  extract_bucket_contract.1 "s3://some-bucket/dir/file" { host := some "some-bucket" }
    "some-bucket" rfl rfl

/-- C3: when the parsed URL has a host, `extract_region` returns the
segment at index 1 of the host's dot-split whenever there are at least
two segments, and fails with `InvalidConfig` otherwise; with no host it
fails with `InvalidConfig`; in particular a host of the form
`s3.<region>.<suffix>` yields `<region>`, e.g.
`http://s3.ap-southeast-2.amazonaws.com` yields `ap-southeast-2`. -/
theorem extract_region_contract :
    (∀ location url host, parse_location location = .ok url → url.host = some host →
        ∀ h2 : (hostParts host).length > 1,
          extract_region location = .ok ((hostParts host).get ⟨1, h2⟩)) ∧
    (∀ location url host, parse_location location = .ok url → url.host = some host →
        (hostParts host).length ≤ 1 →
        extract_region location =
          .error { code := ErrorCode.InvalidConfig,
                   message := "Invalid location: expected region in host, got " ++ location }) ∧
    (∀ location url, parse_location location = .ok url → url.host = none →
        extract_region location =
          .error { code := ErrorCode.InvalidConfig,
                   message := "Invalid fileset location without bucket: " ++ location }) ∧
    (∀ location url host region rest, parse_location location = .ok url →
        url.host = some host → hostParts host = "s3" :: region :: rest →
        extract_region location = .ok region) ∧
    extract_region "http://s3.ap-southeast-2.amazonaws.com" = .ok "ap-southeast-2" := by
  have main : ∀ location url host, parse_location location = .ok url → url.host = some host →
      extract_region location =
        (if h : (hostParts host).length > 1 then .ok ((hostParts host).get ⟨1, h⟩)
         else .error { code := ErrorCode.InvalidConfig,
                       message := "Invalid location: expected region in host, got " ++ location }) := by
    intro location url host hp hh
    simp only [extract_region, hp, hh, ErrorCode.to_error]
  refine ⟨?_, ?_, ?_, ?_, rfl⟩
  · intro location url host hp hh h2
    rw [main location url host hp hh, dif_pos h2]
  · intro location url host hp hh hle
    rw [main location url host hp hh, dif_neg (by omega)]
  · intro location url hp hh
    simp only [extract_region, hp, hh, ErrorCode.to_error]
  · intro location url host region rest hp hh hsplit
    rw [main location url host hp hh, hsplit]
    have hlen : ("s3" :: region :: rest).length > 1 := by
      simp only [List.length_cons]
      omega
    rw [dif_pos hlen]
    rfl

/-- C3 witness: a concrete location whose host dot-splits as
`s3 :: region :: suffix` yields that region, through the general
contract. -/
theorem extract_region_contract_witness :
    extract_region "http://s3.us-east-1.foo" = .ok "us-east-1" :=
  extract_region_contract.2.2.2.1 "http://s3.us-east-1.foo"
    { host := some "s3.us-east-1.foo" } "s3.us-east-1.foo" "us-east-1" ["foo"] rfl rfl rfl

/-- The key-marker test of `extract_s3_config` holds exactly for keys of
the form `"s3-" ++ r`. -/
theorem s3_key_test_iff (kk : String) :
    s3ConfigKeyStart.data.isPrefixOf kk.data = true ↔ ∃ r, kk = "s3-" ++ r := by
  rw [List.isPrefixOf_iff_prefix]
  constructor
  · rintro ⟨t, ht⟩
    refine ⟨String.mk t, String.ext ?_⟩
    rw [String.data_append]
    exact ht.symm
  · rintro ⟨r, rfl⟩
    exact ⟨r.data, by rw [← String.data_append]; rfl⟩

/-- Stripping the key marker from `"s3-" ++ r` yields `r`. -/
theorem s3_key_drop (r : String) :
    (("s3-" ++ r).drop s3ConfigKeyStart.length) = r := by
  apply String.ext
  rw [String.data_drop, String.data_append]
  exact List.drop_left _ _

/-- Membership characterization of `extract_s3_config`: the result binds
`(kk, v)` exactly when the source configuration binds `("s3-" ++ kk, v)`. -/
theorem mem_extract_s3_config (config : AppConfig) (kk v : String) :
    (kk, v) ∈ extract_s3_config config ↔ ("s3-" ++ kk, v) ∈ config.extend_config := by
  unfold extract_s3_config
  rw [List.mem_filterMap]
  constructor
  · rintro ⟨⟨k0, v0⟩, hmem, hf⟩
    by_cases hpre : s3ConfigKeyStart.data.isPrefixOf k0.data = true
    · rw [if_pos hpre] at hf
      rw [Option.some.injEq, Prod.mk.injEq] at hf
      obtain ⟨r, hr⟩ := (s3_key_test_iff k0).mp hpre
      subst hr
      rw [s3_key_drop r] at hf
      rw [← hf.1, ← hf.2]
      exact hmem
    · rw [if_neg hpre] at hf
      exact absurd hf (by simp)
  · intro hmem
    refine ⟨("s3-" ++ kk, v), hmem, ?_⟩
    rw [if_pos ((s3_key_test_iff _).mpr ⟨kk, rfl⟩)]
    rw [s3_key_drop kk]

/-- C5: `extract_s3_config` is total by construction (it returns a plain
map, with no failure channel); its result binds `(kk, v)` exactly when
`extend_config` binds `("s3-" ++ kk, v)` — so every surviving key has
the marker stripped and its value unchanged, keys without the marker
contribute nothing — and the result is empty when no key carries the
marker. -/
theorem extract_s3_config_exact (config : AppConfig) (kk v : String) :
    ((kk, v) ∈ extract_s3_config config ↔ ("s3-" ++ kk, v) ∈ config.extend_config) ∧
    ((∀ kv ∈ config.extend_config, ∀ r : String, kv.1 ≠ "s3-" ++ r) →
      extract_s3_config config = []) := by
  refine ⟨mem_extract_s3_config config kk v, fun hnone => ?_⟩
  unfold extract_s3_config
  rw [List.filterMap_eq_nil_iff]
  intro kv hmem
  rw [if_neg]
  intro hpre
  obtain ⟨r, hr⟩ := (s3_key_test_iff kv.1).mp hpre
  exact hnone kv hmem r hr

/-- C5 witness: on a mixed configuration the matching key survives with
the marker stripped, through the general characterization. -/
theorem extract_s3_config_exact_witness :
    ("endpoint", "http://x") ∈
      extract_s3_config { extend_config := [("s3-endpoint", "http://x"), ("other-key", "y")] } :=
  (extract_s3_config_exact { extend_config := [("s3-endpoint", "http://x"), ("other-key", "y")] }
    "endpoint" "http://x").1.mpr (by simp)

/-- C10: an `extend_config` entry whose key is exactly the marker
`"s3-"` survives extraction, bound to the empty-string key. -/
theorem extract_s3_config_bare_key (config : AppConfig) (v : String) :
    ("s3-", v) ∈ config.extend_config → ("", v) ∈ extract_s3_config config := by
  intro hmem
  refine (mem_extract_s3_config config "" v).mpr ?_
  have h : ("s3-" : String) ++ "" = "s3-" := by
    apply String.ext
    rw [String.data_append]
    simp
  rw [h]
  exact hmem

/-- C10 witness: a configuration holding the bare key `"s3-"` maps it to
the empty-string key. -/
theorem extract_s3_config_bare_key_witness :
    ("", "bare") ∈ extract_s3_config { extend_config := [("s3-", "bare")] } :=
  extract_s3_config_bare_key { extend_config := [("s3-", "bare")] } "bare" (by simp)

/-- C6: when the parameter-map assembly succeeds but the operator
constructor rejects the map, `S3FileSystem::new` returns an
`OpenDalError` (not `InvalidConfig`) whose message carries the
underlying cause, the same text is logged, and no adapter value is
returned. -/
theorem s3_new_opendal_error (P FS OF FL CAP E Op : Type) (env : S3Env P FS OF FL CAP E Op)
    (catalog : Catalog) (fileset : Fileset) (config : AppConfig) (ctx : FileSystemContext)
    (m : List (String × String)) (e : String)
    (hcfg : s3_opendal_cfg catalog fileset config = .ok m)
    (hop : env.operator_new m = .error e) :
    S3FileSystem.new env catalog fileset config ctx =
      (.error { code := ErrorCode.OpenDalError, message := "opendal create failed: " ++ e },
       ["opendal create failed: " ++ e]) := by
  simp only [S3FileSystem.new, hcfg, hop, ErrorCode.to_error]

/-- C6 witness: a concrete environment whose operator constructor always
fails makes construction fail with an `OpenDalError` carrying the cause,
logged once. -/
theorem s3_new_opendal_error_witness :
    S3FileSystem.new
      (⟨fun _ => .error "boom", id, fun _ _ _ =>
          ⟨fun _ => .ok (), fun _ => .ok [], fun _ _ => .ok (), fun _ _ => .ok (),
           fun _ _ => .ok (), fun _ => .ok (), fun _ _ _ => .ok (), fun _ => .ok (),
           fun _ => .ok (), .ok ()⟩⟩ : S3Env Unit Unit Unit Unit Unit Unit Unit)
      { name := "cat1", properties := [("s3-region", "us-west-2")] }
      { storage_location := "s3://my-bucket/data" } { extend_config := [] } () =
      (.error { code := ErrorCode.OpenDalError,
                message := "opendal create failed: " ++ "boom" },
       ["opendal create failed: " ++ "boom"]) :=
  s3_new_opendal_error Unit Unit Unit Unit Unit Unit Unit _ _ _ _ ()
    [("region", "us-west-2"), ("bucket", "my-bucket")] "boom" rfl rfl

/-- C7 counterexample: with catalog property `s3-region` set to the
empty string, the parameter-map assembly of `S3FileSystem::new`
succeeds — construction proceeds to the builder — yet the map's
`region` value is the empty string, so the map does not contain a
non-empty `region` value. -/
theorem s3_param_map_nonempty_counterexample :
    s3_opendal_cfg { name := "cat1", properties := [("s3-region", "")] }
        { storage_location := "s3://my-bucket/data" } { extend_config := [] } =
      .ok [("region", ""), ("bucket", "my-bucket")] ∧
    mget [("region", ""), ("bucket", "my-bucket")] "region" = some "" :=
  ⟨rfl, rfl⟩

/-- C7 (amended): whenever the assembly of the parameter map succeeds
(so `new` reaches operator construction), the map contains a non-empty
`bucket` value and a `region` entry whose value may be empty; and when
the assembly fails, `new` returns that error and no adapter. -/
theorem s3_param_map_invariant (P FS OF FL CAP E Op : Type)
    (env : S3Env P FS OF FL CAP E Op) (catalog : Catalog) (fileset : Fileset)
    (config : AppConfig) (ctx : FileSystemContext) :
    (∀ m, s3_opendal_cfg catalog fileset config = .ok m →
        (∃ b, mget m "bucket" = some b ∧ b ≠ "") ∧ (∃ r, mget m "region" = some r)) ∧
    (∀ e, s3_opendal_cfg catalog fileset config = .error e →
        S3FileSystem.new env catalog fileset config ctx = (.error e, [])) := by
  constructor
  · intro m hm
    unfold s3_opendal_cfg at hm
    split at hm
    · exact absurd hm (by simp)
    · rename_i bucket hbucket
      split at hm
      · exact absurd hm (by simp)
      · rename_i region hregion
        rw [Except.ok.injEq] at hm
        subst hm
        refine ⟨⟨bucket, ?_, extract_bucket_ok_ne_empty hbucket⟩,
                ⟨region, mget_minsert_self _ _ _⟩⟩
        rw [mget_minsert_ne _ _ (by decide)]
        exact mget_minsert_self _ _ _
  · intro e he
    simp only [S3FileSystem.new, he]

/-- C7 witness: on a concrete catalog, fileset and configuration the
assembled map carries a non-empty bucket and a region entry. -/
theorem s3_param_map_invariant_witness :
    (∃ b, mget [("region", "us-west-2"), ("bucket", "my-bucket")] "bucket" = some b ∧ b ≠ "") ∧
    (∃ r, mget [("region", "us-west-2"), ("bucket", "my-bucket")] "region" = some r) :=
  (s3_param_map_invariant Unit Unit Unit Unit Unit Unit Unit
      (⟨fun _ => .ok (), id, fun _ _ _ =>
          ⟨fun _ => .ok (), fun _ => .ok [], fun _ _ => .ok (), fun _ _ => .ok (),
           fun _ _ => .ok (), fun _ => .ok (), fun _ _ _ => .ok (), fun _ => .ok (),
           fun _ => .ok (), .ok ()⟩⟩)
      { name := "cat1", properties := [("s3-region", "us-west-2")] }
      { storage_location := "s3://my-bucket/data" } { extend_config := [] } ()).1
    [("region", "us-west-2"), ("bucket", "my-bucket")] rfl

/-- C8: on the spec's end-to-end example the parameter map assembled by
`S3FileSystem::new` immediately before builder construction binds
exactly `endpoint`, `bucket` and `region` — the region comes from the
catalog property, not from the endpoint, and `other-key` is dropped. -/
theorem s3_new_param_map_example :
    s3_opendal_cfg { name := "cat1", properties := [("s3-region", "us-west-2")] }
        { storage_location := "s3://my-bucket/data" }
        { extend_config := [("s3-endpoint", "http://x"), ("other-key", "y")] } =
      .ok [("region", "us-west-2"), ("bucket", "my-bucket"), ("endpoint", "http://x")] ∧
    mget [("region", "us-west-2"), ("bucket", "my-bucket"), ("endpoint", "http://x")]
        "endpoint" = some "http://x" ∧
    mget [("region", "us-west-2"), ("bucket", "my-bucket"), ("endpoint", "http://x")]
        "bucket" = some "my-bucket" ∧
    mget [("region", "us-west-2"), ("bucket", "my-bucket"), ("endpoint", "http://x")]
        "region" = some "us-west-2" ∧
    mget [("region", "us-west-2"), ("bucket", "my-bucket"), ("endpoint", "http://x")]
        "other-key" = none :=
  ⟨rfl, rfl, rfl, rfl, rfl⟩

/-- C9: when the configuration carries `s3-bucket` or `s3-region`
entries, the assembled parameter map still binds `bucket` to the value
derived from the fileset's storage location and `region` to the value
resolved from the catalog, overwriting the stripped configuration
values. -/
theorem s3_derived_values_override (catalog : Catalog) (fileset : Fileset)
    (config : AppConfig) (b r : String) (m : List (String × String))
    (hconf : mget config.extend_config "s3-bucket" ≠ none ∨
        mget config.extend_config "s3-region" ≠ none)
    (hb : extract_bucket fileset.storage_location = .ok b)
    (hr : S3FileSystem.get_s3_region catalog = .ok r)
    (hm : s3_opendal_cfg catalog fileset config = .ok m) :
    mget m "bucket" = some b ∧ mget m "region" = some r := by
  unfold s3_opendal_cfg at hm
  split at hm
  · exact absurd hm (by simp)
  · rename_i bucket hbucket
    split at hm
    · exact absurd hm (by simp)
    · rename_i region hregion
      rw [Except.ok.injEq] at hm
      subst hm
      rw [hb, Except.ok.injEq] at hbucket
      rw [hr, Except.ok.injEq] at hregion
      subst hbucket
      subst hregion
      constructor
      · rw [mget_minsert_ne _ _ (by decide)]
        exact mget_minsert_self _ _ _
      · exact mget_minsert_self _ _ _

/-- C9 witness: a configuration carrying both `s3-bucket` and
`s3-region` is overridden by the derived bucket and region. -/
theorem s3_derived_values_override_witness :
    mget [("region", "r1"), ("bucket", "b")] "bucket" = some "b" ∧
    mget [("region", "r1"), ("bucket", "b")] "region" = some "r1" :=
  s3_derived_values_override { name := "c", properties := [("s3-region", "r1")] }
    { storage_location := "s3://b/p" }
    { extend_config := [("s3-bucket", "cfgbucket"), ("s3-region", "cfgregion")] }
    "b" "r1" [("region", "r1"), ("bucket", "b")]
    (Or.inl (by decide)) rfl rfl rfl
